import Mathlib

/-!
Formal model of the analytic core of the `adaves/price_elasticity` repository:
the elasticity estimator, the revenue optimizer and the demand simulator
described in the specification, the analysis configuration file
`configs/analysis_config.yaml`, and the GitHub Actions workflow
`.github/workflows/weekly_analysis.yml`.

The Python module `src/utils/model_helpers.py` that implements
`calculate_price_elasticity`, `optimize_price_for_revenue` and
`predict_demand_change` is not part of the source snapshot (only its callers
and the project documentation are), so those three components are modelled
from the specification text; the configuration file and the workflow file are
embedded from their sources.
-/

namespace PriceElasticity

/-! ## Embedding of `configs/analysis_config.yaml`

The configuration file is embedded as the list of its dotted key paths
(every leaf key of the YAML mapping, in file order). -/

/-- The dotted leaf keys of `configs/analysis_config.yaml`, in file order. -/
def analysisConfigKeys : List String :=
  [ "data.raw_data_path"
  , "data.processed_data_path"
  , "data.sample_data_path"
  , "data.output_path"
  , "analysis.test_size"
  , "analysis.validation_size"
  , "analysis.random_state"
  , "analysis.cv_folds"
  , "elasticity.min_price_change"
  , "elasticity.max_price_change"
  , "elasticity.analysis_period_days"
  , "elasticity.comparison_period_days"
  , "elasticity.elastic_threshold"
  , "elasticity.inelastic_threshold"
  , "models.algorithms"
  , "models.hyperparameters.ridge.alpha"
  , "models.hyperparameters.lasso.alpha"
  , "models.hyperparameters.random_forest.n_estimators"
  , "models.hyperparameters.random_forest.max_depth"
  , "features.price_lags"
  , "features.demand_lags"
  , "features.rolling_windows"
  , "features.include_seasonality"
  , "features.seasonal_periods"
  , "visualization.style"
  , "visualization.palette"
  , "visualization.figure_size"
  , "visualization.dpi"
  , "visualization.format"
  , "visualization.correlation_threshold"
  , "visualization.feature_importance_top_n"
  , "business.categories"
  , "business.min_price_threshold"
  , "business.max_price_multiplier"
  , "business.min_volume_threshold"
  , "business.outlier_volume_multiplier"
  , "reporting.confidence_level"
  , "reporting.significance_level"
  , "reporting.decimal_places"
  , "reporting.export_formats"
  , "reporting.include_charts"
  , "logging.level"
  , "logging.format"
  , "logging.file" ]

/-- Whether the character list `needle` is an initial run of `hay`. -/
def charsLead : List Char → List Char → Bool
  | [], _ => true
  | _ :: _, [] => false
  | a :: as, b :: bs => a == b && charsLead as bs

/-- Whether the character list `needle` occurs contiguously inside `hay`. -/
def charsOccur (needle : List Char) : List Char → Bool
  | [] => needle.isEmpty
  | b :: bs => charsLead needle (b :: bs) || charsOccur needle bs

/-- Whether the string `needle` occurs as a substring of `hay`. -/
def strOccurs (needle hay : String) : Bool :=
  charsOccur needle.data hay.data

/-- Whether some key of the configuration file mentions one of the given
name fragments. -/
def configMentions (fragments : List String) : Bool :=
  analysisConfigKeys.any (fun k => fragments.any (fun t => strOccurs t k))

/-- Whether the configuration declares a minimum sample size per partition. -/
def providesMinSampleSize : Bool :=
  configMentions ["sample_size", "min_sample", "min_rows", "min_obs"]

/-- Whether the configuration declares a confidence level for intervals. -/
def providesConfidenceLevel : Bool :=
  configMentions ["confidence"]

/-- Whether the configuration declares price-grid bounds and a step size for
the optimizer's fallback search. -/
def providesGridSearchSpec : Bool :=
  configMentions ["grid", "step", "search"]

/-- Whether the configuration declares a mapping of column names to
price, quantity, group key and date. -/
def providesColumnMapping : Bool :=
  configMentions ["column", "price_col", "quantity_col", "group_key", "date_col"]

/-! ## Embedding of the data-freshness step of
`.github/workflows/weekly_analysis.yml`

The step runs an inline Python script.  Each branch of the script reports its
decision with `print('needs_refresh=...' >> '%GITHUB_OUTPUT%')`, which applies
the Python `>>` operator to two strings.  The embedding models Python values,
the `>>` operator, and the four branches of the script. -/

/-- A Python value appearing in the freshness-check script. -/
inductive PyVal where
  | pstr (s : String)
  | pint (n : Int)

/-- A Python runtime error that the script can raise. -/
inductive PyErr where
  | typeError

/-- The Python `>>` operator: defined on two integers, a `TypeError` on any
other combination of operands (in particular on two strings). -/
def pyRShift : PyVal → PyVal → Except PyErr PyVal
  | .pint a, .pint b => .ok (.pint (a / 2 ^ b.toNat))
  | _, _ => .error .typeError

/-- Observable effects of the freshness-check step: lines printed to standard
output and lines appended to the `GITHUB_OUTPUT` file. -/
structure FreshnessEffects where
  stdout : List String
  githubOutput : List String

/-- How the freshness-check step terminates. -/
inductive StepTermination where
  | exited (code : Nat)
  | raised (e : PyErr)

/-- Report a decision line the way the script does: evaluate
`line >> '%GITHUB_OUTPUT%'` and print the result.  Evaluating the argument of
`print` raises before anything is printed or recorded, and even a successful
evaluation would print to standard output, never write to `GITHUB_OUTPUT`. -/
def reportDecision (st : FreshnessEffects) (line : String) :
    StepTermination × FreshnessEffects :=
  match pyRShift (.pstr line) (.pstr "%GITHUB_OUTPUT%") with
  | .ok (.pstr s) => (.exited 0, { st with stdout := st.stdout ++ [s] })
  | .ok (.pint n) => (.exited 0, { st with stdout := st.stdout ++ [toString n] })
  | .error e => (.raised e, st)

/-- The `Check data freshness` step of the weekly workflow, as a function of
the force-refresh input, whether the data file exists, and its age in days. -/
def checkDataFreshness (forceRefresh fileExists : Bool) (ageDays : Nat) :
    StepTermination × FreshnessEffects :=
  let st0 : FreshnessEffects := ⟨[], []⟩
  if forceRefresh then
    reportDecision { st0 with stdout := st0.stdout ++ ["Force refresh requested"] }
      "needs_refresh=true"
  else if !fileExists then
    reportDecision { st0 with stdout := st0.stdout ++ ["No existing data file found"] }
      "needs_refresh=true"
  else if 6 < ageDays then
    reportDecision { st0 with stdout := st0.stdout ++ ["Data is old - refreshing"] }
      "needs_refresh=true"
  else
    reportDecision { st0 with stdout := st0.stdout ++ ["Data is recent - skipping refresh"] }
      "needs_refresh=false"

/-! ## Embedding of the trigger configuration of
`.github/workflows/weekly_analysis.yml` -/

/-- GitHub Actions events relevant to the weekly workflow. -/
inductive TriggerEvent where
  | schedule
  | workflowDispatch
deriving DecidableEq

/-- The triggers the workflow can currently receive: both cron entries of the
`schedule` trigger are commented out, so only `workflow_dispatch` remains. -/
def enabledTriggers : List TriggerEvent :=
  [.workflowDispatch]

/-- The guard of the `missed_weeks_check` job:
`if: github.event_name == 'schedule'`. -/
def missedWeeksCheckCondition : TriggerEvent → Bool
  | .schedule => true
  | .workflowDispatch => false

noncomputable section

open Real

/-! ## Data model of the estimation core (modelled from the spec) -/

/-- Modelled from the spec: one row of the tabular dataset consumed by the
estimator, with a price and a quantity (section 3, `Observation`). -/
structure Observation where
  price : ℝ
  quantity : ℝ

/-- Modelled from the spec: configuration of the estimator, the
minimum-sample-size threshold per partition (section 4.1). -/
structure EstimatorConfig where
  minSampleSize : ℕ

/-- Modelled from the spec: the record returned for a successfully fitted
partition (section 3, `ElasticityResult`). -/
structure ElasticityResult where
  coefficient : ℝ
  stdError : ℝ
  rSquared : ℝ
  sampleSize : ℕ
  excludedCount : ℕ

/-- Modelled from the spec: the per-partition outcome of the estimator, an
explicit tagged result instead of a sentinel value (sections 4.1, 7, 9). -/
inductive EstimatorOutcome where
  | ok (r : ElasticityResult)
  | insufficientData (usable required : ℕ)
  | degenerateInput

/-! ## Ordinary least squares over a list of points -/

/-- Arithmetic mean of a list of reals (`0` for the empty list). -/
def mean (l : List ℝ) : ℝ := l.sum / l.length

/-- Mean of the first coordinates of a list of points. -/
def meanX (pts : List (ℝ × ℝ)) : ℝ := mean (pts.map Prod.fst)

/-- Mean of the second coordinates of a list of points. -/
def meanY (pts : List (ℝ × ℝ)) : ℝ := mean (pts.map Prod.snd)

/-- Centered sum of squares of the first coordinates. -/
def sxx (pts : List (ℝ × ℝ)) : ℝ :=
  (pts.map (fun p => (p.1 - meanX pts) ^ 2)).sum

/-- Centered sum of squares of the second coordinates. -/
def syy (pts : List (ℝ × ℝ)) : ℝ :=
  (pts.map (fun p => (p.2 - meanY pts) ^ 2)).sum

/-- Centered sum of cross products. -/
def sxy (pts : List (ℝ × ℝ)) : ℝ :=
  (pts.map (fun p => (p.1 - meanX pts) * (p.2 - meanY pts))).sum

/-- Slope of the ordinary-least-squares line through the points. -/
def olsSlope (pts : List (ℝ × ℝ)) : ℝ := sxy pts / sxx pts

/-- Intercept of the ordinary-least-squares line through the points. -/
def olsIntercept (pts : List (ℝ × ℝ)) : ℝ :=
  meanY pts - olsSlope pts * meanX pts

/-- Sum of squared residuals of the line `y = a + b·x` on the points. -/
def ssr (pts : List (ℝ × ℝ)) (a b : ℝ) : ℝ :=
  (pts.map (fun p => (p.2 - (a + b * p.1)) ^ 2)).sum

/-- Sum of squared residuals of the fitted ordinary-least-squares line. -/
def fittedSSR (pts : List (ℝ × ℝ)) : ℝ :=
  ssr pts (olsIntercept pts) (olsSlope pts)

/-- Coefficient of determination of the fitted line. -/
def rSquared (pts : List (ℝ × ℝ)) : ℝ :=
  1 - fittedSSR pts / syy pts

/-- Standard error of the fitted slope. -/
def seSlope (pts : List (ℝ × ℝ)) : ℝ :=
  Real.sqrt (fittedSSR pts / (((pts.length : ℝ) - 2) * sxx pts))

/-! ## Elasticity estimator (modelled from the spec) -/

/-- Modelled from the spec: a row is usable for the fit when its price and
quantity are both strictly positive (section 4.1: rows with non-positive
price or quantity are excluded, logarithm undefined). -/
def usableRow (r : Observation) : Bool :=
  decide (0 < r.price) && decide (0 < r.quantity)

/-- The usable rows of a partition, in order. -/
def usableRows (obs : List Observation) : List Observation :=
  obs.filter usableRow

/-- Natural logarithms of price and quantity of each row. -/
def logPoints (rows : List Observation) : List (ℝ × ℝ) :=
  rows.map (fun r => (Real.log r.price, Real.log r.quantity))

/-- Modelled from the spec: `calculate_price_elasticity` of the missing
`src/utils/model_helpers.py`, per section 4.1.  For a partition it excludes
rows with non-positive price or quantity, returns `insufficientData` when
fewer usable rows remain than the configured minimum, returns
`degenerateInput` when the log-prices have zero variance, and otherwise fits
`log(quantity) = a + b·log(price)` by ordinary least squares, returning the
slope `b` as the coefficient together with its standard error and `R²`. -/
def calculate_price_elasticity (cfg : EstimatorConfig) (obs : List Observation) :
    EstimatorOutcome :=
  let rows := usableRows obs
  if rows.length < cfg.minSampleSize then
    .insufficientData rows.length cfg.minSampleSize
  else
    let pts := logPoints rows
    if sxx pts = 0 then
      .degenerateInput
    else
      .ok { coefficient := olsSlope pts
          , stdError := seSlope pts
          , rSquared := rSquared pts
          , sampleSize := rows.length
          , excludedCount := obs.length - rows.length }

/-- Modelled from the spec: the partition loop (sections 5, 7) — every group
is estimated independently and its tagged outcome is returned alongside its
key; one group's failure cannot abort or omit another group's result. -/
def estimateByGroup (cfg : EstimatorConfig)
    (groups : List (String × List Observation)) :
    List (String × EstimatorOutcome) :=
  groups.map (fun g => (g.1, calculate_price_elasticity cfg g.2))

/-- A row with both coordinates multiplied by the same constant. -/
def scaleObs (c : ℝ) (r : Observation) : Observation :=
  ⟨c * r.price, c * r.quantity⟩

/-! ## Revenue optimizer (modelled from the spec) -/

/-- Modelled from the spec: the current price and quantity point from which
the constant `k` of the demand curve is solved (section 4.2). -/
structure Baseline where
  price : ℝ
  quantity : ℝ

/-- Modelled from the spec: the caller-supplied bounded price range and step
size of the optimizer's fallback grid search (sections 4.2, 6). -/
structure PriceRange where
  lo : ℝ
  hi : ℝ
  step : ℝ

/-- Modelled from the spec: the constant-elasticity demand curve
`quantity = k·price^elasticity` with `k` solved from the baseline point, i.e.
`q(p) = q₀·(p/p₀)^e`. -/
def demandAt (b : Baseline) (e p : ℝ) : ℝ :=
  b.quantity * (p / b.price) ^ e

/-- Revenue at price `p` under the constant-elasticity demand curve. -/
def revenueAt (b : Baseline) (e p : ℝ) : ℝ :=
  p * demandAt b e p

/-- Modelled from the spec: the optimizer's tagged outcome (sections 4.2, 7):
a closed-form optimum, the no-finite-interior-optimum report with the revenue
at the search ceiling, or the refusal for anomalous positive elasticity. -/
inductive OptimizationOutcome where
  | optimum (price revenue : ℝ)
  | noInteriorOptimum (ceilingPrice revenue : ℝ)
  | anomalousElasticity

/-- Modelled from the spec: `optimize_price_for_revenue` of the missing
`src/utils/model_helpers.py`, per section 4.2.  For `e > 0` it refuses to
optimize.  For `-1 ≤ e ≤ 0` revenue `k·p^(1+e)` is monotone in price, so it
reports no finite interior optimum and returns the revenue at the
caller-supplied search ceiling.  For `e < -1` revenue `k·p^(1+e)` is
decreasing in price, so the revenue-maximizing price over the caller-supplied
range is its lower bound, returned in closed form with its revenue. -/
def optimize_price_for_revenue (b : Baseline) (e : ℝ) (r : PriceRange) :
    OptimizationOutcome :=
  if 0 < e then
    .anomalousElasticity
  else if e < -1 then
    .optimum r.lo (revenueAt b e r.lo)
  else
    .noInteriorOptimum r.hi (revenueAt b e r.hi)

/-- The price grid `lo, lo+step, lo+2·step, …` with `n` points. -/
def gridPoints (lo step : ℝ) (n : ℕ) : List ℝ :=
  (List.range n).map (fun i : ℕ => lo + (i : ℝ) * step)

/-- Number of grid points covering `[lo, hi]` with the given step. -/
def gridSize (r : PriceRange) : ℕ :=
  ⌊(r.hi - r.lo) / r.step⌋₊ + 1

/-- Modelled from the spec: the bounded numeric grid search over the
caller-supplied price range, the declared fallback of the optimizer —
it scans the grid and keeps the price with the highest revenue. -/
def gridSearchPrice (b : Baseline) (e : ℝ) (r : PriceRange) : ℝ :=
  (gridPoints r.lo r.step (gridSize r)).foldl
    (fun best p => if revenueAt b e best < revenueAt b e p then p else best) r.lo

/-! ## Demand simulator (modelled from the spec) -/

/-- Modelled from the spec: the projection returned by the demand simulator
(section 4.3): percentage quantity change, new absolute quantity, new price
and new revenue. -/
structure DemandChangeResult where
  pctQuantityChange : ℝ
  newQuantity : ℝ
  newPrice : ℝ
  newRevenue : ℝ

/-- Modelled from the spec: `predict_demand_change` of the missing
`src/utils/model_helpers.py`, per section 4.3.  The percentage quantity
change is `elasticity × percentage price change` (the constant-elasticity
linear approximation), and the absolute quantity and revenue are obtained by
applying the two percentage changes to the baseline. -/
def predict_demand_change (b : Baseline) (e pctPriceChange : ℝ) :
    DemandChangeResult :=
  let pctQ := e * pctPriceChange
  let newQ := b.quantity * (1 + pctQ)
  let newP := b.price * (1 + pctPriceChange)
  { pctQuantityChange := pctQ
  , newQuantity := newQ
  , newPrice := newP
  , newRevenue := newP * newQ }

/-! ## Concrete inputs used by witnesses and counterexamples -/

/-- The spec's default estimator configuration: minimum sample size 10. -/
def defaultConfig : EstimatorConfig := ⟨10⟩

/-- A partition of ten identical rows with price 1 and quantity 1. -/
def onesPartition : List Observation :=
  List.replicate 10 ⟨1, 1⟩

/-- A two-row partition with distinct prices `1` and `exp 1`. -/
def twoPointPartition : List Observation :=
  [⟨1, 1⟩, ⟨Real.exp 1, 1⟩]

/-- A three-row partition of usable rows. -/
def threeRowPartition : List Observation :=
  [⟨1, 1⟩, ⟨2, 1⟩, ⟨3, 1⟩]

/-- The baseline of the spec's optimizer cross-check: price 10, quantity 100. -/
def crossCheckBaseline : Baseline := ⟨10, 100⟩

/-- The price range of the spec's optimizer cross-check: `[1, 50]`, step `0.01`. -/
def crossCheckRange : PriceRange := ⟨1, 50, 1 / 100⟩

end

/-! ## Theorems -/

/-! ### List summation helpers -/

theorem sum_map_addf {α : Type} (l : List α) (f g : α → ℝ) :
    (l.map (fun x => f x + g x)).sum = (l.map f).sum + (l.map g).sum := by
  induction l with
  | nil => simp
  | cons a t ih => simp only [List.map_cons, List.sum_cons, ih]; ring

theorem sum_map_constf {α : Type} (l : List α) (c : ℝ) :
    (l.map (fun _ => c)).sum = l.length * c := by
  induction l with
  | nil => simp
  | cons a t ih =>
    simp only [List.map_cons, List.sum_cons, ih, List.length_cons]
    push_cast
    ring

theorem sum_map_shift (l : List ℝ) (d : ℝ) :
    (l.map (fun x => d + x)).sum = l.length * d + l.sum := by
  induction l with
  | nil => simp
  | cons a t ih =>
    simp only [List.map_cons, List.sum_cons, ih, List.length_cons]
    push_cast
    ring

theorem sum_map_sub_const (l : List ℝ) (m : ℝ) :
    (l.map (fun x => x - m)).sum = l.sum - l.length * m := by
  induction l with
  | nil => simp
  | cons a t ih =>
    simp only [List.map_cons, List.sum_cons, ih, List.length_cons]
    push_cast
    ring

theorem sum_sub_mean (l : List ℝ) : (l.map (fun x => x - mean l)).sum = 0 := by
  rcases eq_or_ne l [] with h | h
  · subst h; simp
  · have hlen : (l.length : ℝ) ≠ 0 :=
      Nat.cast_ne_zero.mpr (List.length_pos.mpr h).ne'
    rw [sum_map_sub_const]
    have h1 : (l.length : ℝ) * mean l = l.sum := by
      unfold mean
      field_simp
    rw [h1, sub_self]

theorem sum_dev_fst (pts : List (ℝ × ℝ)) :
    (pts.map (fun p => p.1 - meanX pts)).sum = 0 := by
  have h : pts.map (fun p => p.1 - meanX pts)
      = (pts.map Prod.fst).map (fun x => x - mean (pts.map Prod.fst)) := by
    rw [List.map_map]
    rfl
  rw [h]
  exact sum_sub_mean _

theorem sum_dev_snd (pts : List (ℝ × ℝ)) :
    (pts.map (fun p => p.2 - meanY pts)).sum = 0 := by
  have h : pts.map (fun p => p.2 - meanY pts)
      = (pts.map Prod.snd).map (fun x => x - mean (pts.map Prod.snd)) := by
    rw [List.map_map]
    rfl
  rw [h]
  exact sum_sub_mean _

/-! ### Ordinary least squares: decomposition and optimality -/

theorem ssr_eq (pts : List (ℝ × ℝ)) (a b : ℝ) :
    ssr pts a b
      = syy pts - 2 * b * sxy pts + b ^ 2 * sxx pts
        + (pts.length : ℝ) * (meanY pts - a - b * meanX pts) ^ 2 := by
  have hmap : pts.map (fun p => (p.2 - (a + b * p.1)) ^ 2)
      = pts.map (fun p =>
          (((p.2 - meanY pts) ^ 2
            + b ^ 2 * ((p.1 - meanX pts) ^ 2))
            + (meanY pts - a - b * meanX pts) ^ 2)
          + (((-(2 * b)) * ((p.1 - meanX pts) * (p.2 - meanY pts))
            + (2 * (meanY pts - a - b * meanX pts)) * (p.2 - meanY pts))
            + (-(2 * b) * (meanY pts - a - b * meanX pts)) * (p.1 - meanX pts))) :=
    List.map_congr_left (fun p _ => by ring)
  unfold ssr syy sxx sxy
  rw [hmap, sum_map_addf, sum_map_addf, sum_map_addf, sum_map_addf, sum_map_addf,
    List.sum_map_mul_left, List.sum_map_mul_left, List.sum_map_mul_left,
    List.sum_map_mul_left, sum_map_constf, sum_dev_fst, sum_dev_snd]
  ring

theorem sxx_nonneg (pts : List (ℝ × ℝ)) : 0 ≤ sxx pts := by
  unfold sxx
  apply List.sum_nonneg
  intro x hx
  obtain ⟨p, _, rfl⟩ := List.mem_map.mp hx
  positivity

theorem fittedSSR_le (pts : List (ℝ × ℝ)) (h : sxx pts ≠ 0) (a b : ℝ) :
    fittedSSR pts ≤ ssr pts a b := by
  have hpos : 0 < sxx pts := lt_of_le_of_ne (sxx_nonneg pts) (Ne.symm h)
  have hfit : fittedSSR pts = syy pts - sxy pts ^ 2 / sxx pts := by
    unfold fittedSSR
    rw [ssr_eq]
    unfold olsIntercept olsSlope
    field_simp
    ring
  rw [hfit, ssr_eq]
  have hsq : (b * sxx pts - sxy pts) ^ 2 / sxx pts
      = b ^ 2 * sxx pts - 2 * b * sxy pts + sxy pts ^ 2 / sxx pts := by
    field_simp
    ring
  have hkey : 0 ≤ (b * sxx pts - sxy pts) ^ 2 / sxx pts
      + (pts.length : ℝ) * (meanY pts - a - b * meanX pts) ^ 2 :=
    add_nonneg (div_nonneg (sq_nonneg _) hpos.le)
      (mul_nonneg (Nat.cast_nonneg _) (sq_nonneg _))
  rw [hsq] at hkey
  linarith

theorem sxx_const (pts : List (ℝ × ℝ)) (a : ℝ) (h : ∀ p ∈ pts, p.1 = a) :
    sxx pts = 0 := by
  rcases eq_or_ne pts [] with hnil | hne
  · subst hnil; rfl
  · have hlen : (pts.length : ℝ) ≠ 0 :=
      Nat.cast_ne_zero.mpr (List.length_pos.mpr hne).ne'
    have hmean : meanX pts = a := by
      have hrep : pts.map Prod.fst = List.replicate (pts.map Prod.fst).length a := by
        apply List.eq_replicate_of_mem
        intro x hx
        obtain ⟨p, hp, rfl⟩ := List.mem_map.mp hx
        exact h p hp
      unfold meanX mean
      rw [hrep, List.sum_replicate, List.length_replicate, List.length_map,
        nsmul_eq_mul]
      field_simp
    have hzero : pts.map (fun p => (p.1 - meanX pts) ^ 2)
        = pts.map (fun _ => (0 : ℝ)) :=
      List.map_congr_left (fun p hp => by rw [h p hp, hmean]; ring)
    unfold sxx
    rw [hzero, sum_map_constf, mul_zero]

/-! ### Translation invariance of the fitted line's statistics -/

theorem mean_shift (l : List ℝ) (h : l ≠ []) (d : ℝ) :
    mean (l.map (fun x => d + x)) = d + mean l := by
  have hlen : (l.length : ℝ) ≠ 0 :=
    Nat.cast_ne_zero.mpr (List.length_pos.mpr h).ne'
  unfold mean
  rw [List.length_map, sum_map_shift, add_div, mul_div_cancel_left₀ d hlen]

theorem meanX_shift (pts : List (ℝ × ℝ)) (h : pts ≠ []) (d d' : ℝ) :
    meanX (pts.map (fun q => (d + q.1, d' + q.2))) = d + meanX pts := by
  unfold meanX
  have h1 : (pts.map (fun q => ((d + q.1, d' + q.2) : ℝ × ℝ))).map Prod.fst
      = (pts.map Prod.fst).map (fun x => d + x) := by
    rw [List.map_map, List.map_map]
    rfl
  rw [h1]
  exact mean_shift _ (fun hn => h (by simpa using hn)) d

theorem meanY_shift (pts : List (ℝ × ℝ)) (h : pts ≠ []) (d d' : ℝ) :
    meanY (pts.map (fun q => (d + q.1, d' + q.2))) = d' + meanY pts := by
  unfold meanY
  have h1 : (pts.map (fun q => ((d + q.1, d' + q.2) : ℝ × ℝ))).map Prod.snd
      = (pts.map Prod.snd).map (fun x => d' + x) := by
    rw [List.map_map, List.map_map]
    rfl
  rw [h1]
  exact mean_shift _ (fun hn => h (by simpa using hn)) d'

theorem sxx_shift (pts : List (ℝ × ℝ)) (d d' : ℝ) :
    sxx (pts.map (fun q => (d + q.1, d' + q.2))) = sxx pts := by
  rcases eq_or_ne pts [] with h | h
  · subst h; rfl
  · unfold sxx
    rw [meanX_shift pts h d d', List.map_map]
    exact congrArg List.sum (List.map_congr_left (fun p _ => by
      simp only [Function.comp_apply]
      ring))

theorem syy_shift (pts : List (ℝ × ℝ)) (d d' : ℝ) :
    syy (pts.map (fun q => (d + q.1, d' + q.2))) = syy pts := by
  rcases eq_or_ne pts [] with h | h
  · subst h; rfl
  · unfold syy
    rw [meanY_shift pts h d d', List.map_map]
    exact congrArg List.sum (List.map_congr_left (fun p _ => by
      simp only [Function.comp_apply]
      ring))

theorem sxy_shift (pts : List (ℝ × ℝ)) (d d' : ℝ) :
    sxy (pts.map (fun q => (d + q.1, d' + q.2))) = sxy pts := by
  rcases eq_or_ne pts [] with h | h
  · subst h; rfl
  · unfold sxy
    rw [meanX_shift pts h d d', meanY_shift pts h d d', List.map_map]
    exact congrArg List.sum (List.map_congr_left (fun p _ => by
      simp only [Function.comp_apply]
      ring))

theorem olsSlope_shift (pts : List (ℝ × ℝ)) (d d' : ℝ) :
    olsSlope (pts.map (fun q => (d + q.1, d' + q.2))) = olsSlope pts := by
  unfold olsSlope
  rw [sxx_shift, sxy_shift]

theorem olsIntercept_shift (pts : List (ℝ × ℝ)) (h : pts ≠ []) (d d' : ℝ) :
    olsIntercept (pts.map (fun q => (d + q.1, d' + q.2)))
      = olsIntercept pts + d' - olsSlope pts * d := by
  unfold olsIntercept
  rw [meanX_shift pts h d d', meanY_shift pts h d d', olsSlope_shift]
  ring

theorem fittedSSR_shift (pts : List (ℝ × ℝ)) (d d' : ℝ) :
    fittedSSR (pts.map (fun q => (d + q.1, d' + q.2))) = fittedSSR pts := by
  rcases eq_or_ne pts [] with h | h
  · subst h; rfl
  · unfold fittedSSR ssr
    rw [olsIntercept_shift pts h d d', olsSlope_shift, List.map_map]
    exact congrArg List.sum (List.map_congr_left (fun p _ => by
      simp only [Function.comp_apply]
      ring))

theorem rSquared_shift (pts : List (ℝ × ℝ)) (d d' : ℝ) :
    rSquared (pts.map (fun q => (d + q.1, d' + q.2))) = rSquared pts := by
  unfold rSquared
  rw [fittedSSR_shift, syy_shift]

theorem seSlope_shift (pts : List (ℝ × ℝ)) (d d' : ℝ) :
    seSlope (pts.map (fun q => (d + q.1, d' + q.2))) = seSlope pts := by
  unfold seSlope
  rw [fittedSSR_shift, sxx_shift, List.length_map]

/-! ### The estimator under uniform scaling of prices and quantities -/

theorem usableRow_scale {c : ℝ} (hc : 0 < c) (r : Observation) :
    usableRow (scaleObs c r) = usableRow r := by
  simp only [usableRow, scaleObs]
  congr 1
  · exact decide_eq_decide.mpr (mul_pos_iff_of_pos_left hc)
  · exact decide_eq_decide.mpr (mul_pos_iff_of_pos_left hc)

theorem usableRows_scale {c : ℝ} (hc : 0 < c) (obs : List Observation) :
    usableRows (obs.map (scaleObs c)) = (usableRows obs).map (scaleObs c) := by
  unfold usableRows
  rw [List.filter_map]
  congr 1
  exact List.filter_congr (fun r _ => usableRow_scale hc r)

theorem usableRows_mem_pos (obs : List Observation) {r : Observation}
    (hr : r ∈ usableRows obs) : 0 < r.price ∧ 0 < r.quantity := by
  unfold usableRows at hr
  have h2 := (List.mem_filter.mp hr).2
  unfold usableRow at h2
  simpa [Bool.and_eq_true, decide_eq_true_eq] using h2

theorem logPoints_scale {c : ℝ} (hc : 0 < c) (obs : List Observation) :
    logPoints ((usableRows obs).map (scaleObs c))
      = (logPoints (usableRows obs)).map
          (fun q => (Real.log c + q.1, Real.log c + q.2)) := by
  unfold logPoints
  rw [List.map_map, List.map_map]
  apply List.map_congr_left
  intro r hr
  obtain ⟨hp, hq⟩ := usableRows_mem_pos obs hr
  simp only [Function.comp_apply, scaleObs]
  rw [Real.log_mul (ne_of_gt hc) (ne_of_gt hp),
    Real.log_mul (ne_of_gt hc) (ne_of_gt hq)]

/-- Claim C7: running the estimator with every row's price and quantity both
multiplied by the same positive constant yields the same outcome — in
particular the same elasticity coefficient — as running it on the original
observations (scale invariance of the log-log regression slope). -/
theorem estimator_scale_invariance (cfg : EstimatorConfig)
    (obs : List Observation) (c : ℝ) (hc : 0 < c) :
    calculate_price_elasticity cfg (obs.map (scaleObs c)) =
      calculate_price_elasticity cfg obs := by
  simp only [calculate_price_elasticity, usableRows_scale hc, List.length_map,
    logPoints_scale hc, sxx_shift, olsSlope_shift, seSlope_shift,
    rSquared_shift]

/-- The scale-invariance theorem at the concrete scaling factor 2 on the
ten-row partition. -/
theorem estimator_scale_invariance_witness :
    (0 : ℝ) < 2 ∧
    calculate_price_elasticity defaultConfig (onesPartition.map (scaleObs 2)) =
      calculate_price_elasticity defaultConfig onesPartition :=
  ⟨by norm_num, estimator_scale_invariance defaultConfig onesPartition 2 (by norm_num)⟩

/-! ### Estimator branch behaviour -/

theorem usableRow_true {r : Observation} (hp : 0 < r.price) (hq : 0 < r.quantity) :
    usableRow r = true := by
  simp [usableRow, hp, hq]

theorem usableRows_ones : usableRows onesPartition = onesPartition := by
  apply List.filter_eq_self.mpr
  intro r hr
  have : r = (⟨1, 1⟩ : Observation) := (List.eq_of_mem_replicate hr)
  subst this
  exact usableRow_true (by norm_num) (by norm_num)

theorem sxx_logPoints_ones : sxx (logPoints onesPartition) = 0 := by
  apply sxx_const _ 0
  intro p hp
  unfold logPoints at hp
  obtain ⟨r, hr, rfl⟩ := List.mem_map.mp hp
  have : r = (⟨1, 1⟩ : Observation) := (List.eq_of_mem_replicate hr)
  subst this
  simp

/-- Claim C1, counterexample: a partition of ten usable rows that all share
price 1 meets the minimum-sample-size threshold of 10, yet the estimator
returns `degenerateInput` rather than an `ElasticityResult` with the fitted
slope, because the log-prices have zero variance. -/
theorem estimator_ols_counterexample :
    defaultConfig.minSampleSize ≤ (usableRows onesPartition).length ∧
    calculate_price_elasticity defaultConfig onesPartition =
      EstimatorOutcome.degenerateInput := by
  have hlen : (usableRows onesPartition).length = 10 := by
    rw [usableRows_ones]
    simp [onesPartition]
  constructor
  · rw [hlen]
    exact le_rfl
  · simp only [calculate_price_elasticity, usableRows_ones]
    rw [if_neg (by simp [onesPartition, defaultConfig]), if_pos sxx_logPoints_ones]

/-- Claim C1 (amended): for every partition with at least the threshold
number of usable rows whose log-prices do not all coincide (nonzero `sxx`),
the estimator returns an `ElasticityResult` whose coefficient is the fitted
slope of the ordinary-least-squares line through the log-log points, with its
standard error and `R²`; the fitted intercept and slope minimize the sum of
squared residuals over all candidate lines. -/
theorem estimator_fits_ols (cfg : EstimatorConfig) (obs : List Observation)
    (hmin : cfg.minSampleSize ≤ (usableRows obs).length)
    (hvar : sxx (logPoints (usableRows obs)) ≠ 0) :
    calculate_price_elasticity cfg obs =
      EstimatorOutcome.ok
        { coefficient := olsSlope (logPoints (usableRows obs))
        , stdError := seSlope (logPoints (usableRows obs))
        , rSquared := rSquared (logPoints (usableRows obs))
        , sampleSize := (usableRows obs).length
        , excludedCount := obs.length - (usableRows obs).length } ∧
    ∀ a b : ℝ,
      ssr (logPoints (usableRows obs))
          (olsIntercept (logPoints (usableRows obs)))
          (olsSlope (logPoints (usableRows obs)))
        ≤ ssr (logPoints (usableRows obs)) a b := by
  constructor
  · simp only [calculate_price_elasticity]
    rw [if_neg (Nat.not_lt.mpr hmin), if_neg hvar]
  · intro a b
    exact fittedSSR_le _ hvar a b

theorem usableRows_twoPoint : usableRows twoPointPartition = twoPointPartition := by
  apply List.filter_eq_self.mpr
  intro r hr
  unfold twoPointPartition at hr
  rcases List.mem_cons.mp hr with h | h
  · subst h; exact usableRow_true (by norm_num) (by norm_num)
  · rw [List.mem_singleton] at h
    subst h
    exact usableRow_true (Real.exp_pos 1) (by norm_num)

theorem logPoints_twoPoint :
    logPoints twoPointPartition = [(0, 0), (1, 0)] := by
  unfold logPoints twoPointPartition
  simp [Real.log_one, Real.log_exp]

theorem sxx_twoPoint_ne : sxx (logPoints (usableRows twoPointPartition)) ≠ 0 := by
  rw [usableRows_twoPoint, logPoints_twoPoint]
  norm_num [sxx, meanX, mean]

/-- The fitted-OLS theorem at a concrete two-row partition with distinct
prices `1` and `exp 1`, with the two hypotheses discharged concretely. -/
theorem estimator_fits_ols_witness :
    EstimatorConfig.minSampleSize ⟨2⟩ ≤ (usableRows twoPointPartition).length ∧
    sxx (logPoints (usableRows twoPointPartition)) ≠ 0 ∧
    calculate_price_elasticity ⟨2⟩ twoPointPartition =
      EstimatorOutcome.ok
        { coefficient := olsSlope (logPoints (usableRows twoPointPartition))
        , stdError := seSlope (logPoints (usableRows twoPointPartition))
        , rSquared := rSquared (logPoints (usableRows twoPointPartition))
        , sampleSize := (usableRows twoPointPartition).length
        , excludedCount :=
            twoPointPartition.length - (usableRows twoPointPartition).length } := by
  have h1 : EstimatorConfig.minSampleSize ⟨2⟩ ≤ (usableRows twoPointPartition).length := by
    rw [usableRows_twoPoint]
    norm_num [twoPointPartition]
  exact ⟨h1, sxx_twoPoint_ne,
    (estimator_fits_ols ⟨2⟩ twoPointPartition h1 sxx_twoPoint_ne).1⟩

/-- Claim C4: for every group list, every partition whose usable-row count is
below the configured minimum yields an explicit `insufficientData` entry in
the per-group result table — the partition is not omitted and no coefficient
is computed for it. -/
theorem estimator_insufficient_data (cfg : EstimatorConfig)
    (gs : List (String × List Observation)) (k : String) (obs : List Observation)
    (hmem : (k, obs) ∈ gs)
    (hlt : (usableRows obs).length < cfg.minSampleSize) :
    (k, EstimatorOutcome.insufficientData (usableRows obs).length cfg.minSampleSize)
      ∈ estimateByGroup cfg gs := by
  have hcalc : calculate_price_elasticity cfg obs
      = EstimatorOutcome.insufficientData (usableRows obs).length cfg.minSampleSize := by
    simp only [calculate_price_elasticity]
    rw [if_pos hlt]
  unfold estimateByGroup
  refine List.mem_map.mpr ⟨(k, obs), hmem, ?_⟩
  show (k, calculate_price_elasticity cfg obs) = _
  rw [hcalc]

theorem usableRows_threeRow : usableRows threeRowPartition = threeRowPartition := by
  apply List.filter_eq_self.mpr
  intro r hr
  unfold threeRowPartition at hr
  rcases List.mem_cons.mp hr with h | h
  · subst h; exact usableRow_true (by norm_num) (by norm_num)
  · rcases List.mem_cons.mp h with h | h
    · subst h; exact usableRow_true (by norm_num) (by norm_num)
    · rw [List.mem_singleton] at h
      subst h
      exact usableRow_true (by norm_num) (by norm_num)

/-- The insufficient-data theorem at a concrete group list: a partition of 3
usable rows under the default minimum of 10 yields `insufficientData 3 10`. -/
theorem estimator_insufficient_data_witness :
    ("A", threeRowPartition) ∈ [("A", threeRowPartition)] ∧
    (usableRows threeRowPartition).length < defaultConfig.minSampleSize ∧
    ("A", EstimatorOutcome.insufficientData (usableRows threeRowPartition).length
        defaultConfig.minSampleSize)
      ∈ estimateByGroup defaultConfig [("A", threeRowPartition)] := by
  have h1 : ("A", threeRowPartition) ∈ [("A", threeRowPartition)] :=
    List.mem_singleton.mpr rfl
  have h2 : (usableRows threeRowPartition).length < defaultConfig.minSampleSize := by
    rw [usableRows_threeRow]
    norm_num [threeRowPartition, defaultConfig]
  exact ⟨h1, h2,
    estimator_insufficient_data defaultConfig [("A", threeRowPartition)] "A"
      threeRowPartition h1 h2⟩

/-- Claim C5: for every partition that meets the minimum-sample-size
threshold and whose usable rows all share one price (zero variance in
log-price), the estimator returns the explicit `degenerateInput` result, and
every partition of any group list keeps its own independently computed entry
in the result table — no partition's outcome aborts or suppresses
another's. -/
theorem estimator_degenerate_input (cfg : EstimatorConfig) (obs : List Observation)
    (hmin : cfg.minSampleSize ≤ (usableRows obs).length)
    (hsame : ∀ r ∈ usableRows obs, ∀ s ∈ usableRows obs, r.price = s.price) :
    calculate_price_elasticity cfg obs = EstimatorOutcome.degenerateInput ∧
    ∀ (gs : List (String × List Observation)) (k : String) (p : List Observation),
      (k, p) ∈ gs →
        (k, calculate_price_elasticity cfg p) ∈ estimateByGroup cfg gs := by
  have hzero : sxx (logPoints (usableRows obs)) = 0 := by
    rcases eq_or_ne (usableRows obs) [] with hnil | hne
    · rw [hnil]; rfl
    · obtain ⟨r0, hr0⟩ := List.exists_mem_of_ne_nil (usableRows obs) hne
      apply sxx_const _ (Real.log r0.price)
      intro p hp
      unfold logPoints at hp
      obtain ⟨r, hr, rfl⟩ := List.mem_map.mp hp
      exact congrArg Real.log (hsame r hr r0 hr0)
  constructor
  · simp only [calculate_price_elasticity]
    rw [if_neg (Nat.not_lt.mpr hmin), if_pos hzero]
  · intro gs k p hmem
    unfold estimateByGroup
    exact List.mem_map.mpr ⟨(k, p), hmem, rfl⟩

/-- The degenerate-input theorem at the concrete ten-row partition whose
rows all have price 1, with the two hypotheses discharged concretely. -/
theorem estimator_degenerate_input_witness :
    defaultConfig.minSampleSize ≤ (usableRows onesPartition).length ∧
    (∀ r ∈ usableRows onesPartition, ∀ s ∈ usableRows onesPartition,
      r.price = s.price) ∧
    calculate_price_elasticity defaultConfig onesPartition =
      EstimatorOutcome.degenerateInput := by
  have h1 : defaultConfig.minSampleSize ≤ (usableRows onesPartition).length := by
    rw [usableRows_ones]
    norm_num [onesPartition, defaultConfig]
  have h2 : ∀ r ∈ usableRows onesPartition, ∀ s ∈ usableRows onesPartition,
      r.price = s.price := by
    intro r hr s hs
    rw [usableRows_ones] at hr hs
    rw [List.eq_of_mem_replicate hr, List.eq_of_mem_replicate hs]
  exact ⟨h1, h2,
    (estimator_degenerate_input defaultConfig onesPartition h1 h2).1⟩

/-- Claim C6: for every percentage price change, elasticity coefficient and
baseline, the demand simulator returns a percentage quantity change exactly
equal to elasticity × percentage price change, and the absolute quantity and
revenue obtained by applying those percentage changes to the baseline. -/
theorem predict_demand_change_spec (b : Baseline) (e pc : ℝ) :
    (predict_demand_change b e pc).pctQuantityChange = e * pc ∧
    (predict_demand_change b e pc).newQuantity = b.quantity * (1 + e * pc) ∧
    (predict_demand_change b e pc).newPrice = b.price * (1 + pc) ∧
    (predict_demand_change b e pc).newRevenue =
      (predict_demand_change b e pc).newPrice *
        (predict_demand_change b e pc).newQuantity := by
  refine ⟨rfl, rfl, rfl, rfl⟩

/-! ### Revenue under the constant-elasticity demand curve -/

theorem revenueAt_eq (b : Baseline) (hb : 0 < b.price) (e : ℝ) {p : ℝ}
    (hp : 0 < p) :
    revenueAt b e p = b.quantity * (b.price ^ (-e) * p ^ (1 + e)) := by
  have h0 : (0 : ℝ) < b.price ^ e := Real.rpow_pos_of_pos hb e
  unfold revenueAt demandAt
  rw [Real.div_rpow hp.le hb.le, Real.rpow_add hp, Real.rpow_one,
    Real.rpow_neg hb.le]
  field_simp
  ring

theorem revenueAt_antitone (b : Baseline) (hb : 0 < b.price)
    (hq : 0 ≤ b.quantity) {e : ℝ} (he : e < -1) {p q : ℝ} (hp : 0 < p)
    (hpq : p ≤ q) : revenueAt b e q ≤ revenueAt b e p := by
  have hq0 : 0 < q := lt_of_lt_of_le hp hpq
  rw [revenueAt_eq b hb e hp, revenueAt_eq b hb e hq0]
  apply mul_le_mul_of_nonneg_left _ hq
  apply mul_le_mul_of_nonneg_left _ (Real.rpow_pos_of_pos hb _).le
  exact Real.rpow_le_rpow_of_nonpos hp hpq (by linarith)

theorem revenueAt_monotone (b : Baseline) (hb : 0 < b.price)
    (hq : 0 ≤ b.quantity) {e : ℝ} (he : -1 ≤ e) {p q : ℝ} (hp : 0 < p)
    (hpq : p ≤ q) : revenueAt b e p ≤ revenueAt b e q := by
  have hq0 : 0 < q := lt_of_lt_of_le hp hpq
  rw [revenueAt_eq b hb e hp, revenueAt_eq b hb e hq0]
  apply mul_le_mul_of_nonneg_left _ hq
  apply mul_le_mul_of_nonneg_left _ (Real.rpow_pos_of_pos hb _).le
  exact Real.rpow_le_rpow hp.le hpq (by linarith)

theorem revenueAt_cross {p : ℝ} (hp : 0 < p) :
    revenueAt crossCheckBaseline (-2) p = 10000 / p := by
  have hb : (0 : ℝ) < crossCheckBaseline.price := by
    norm_num [crossCheckBaseline]
  have h1 := revenueAt_eq crossCheckBaseline hb (-2) hp
  rw [h1]
  have h2 : ((1 : ℝ) + -2) = -1 := by norm_num
  have h3 : (-(-2) : ℝ) = ((2 : ℕ) : ℝ) := by norm_num
  rw [h2, h3, Real.rpow_natCast, Real.rpow_neg_one]
  have hq : crossCheckBaseline.quantity = 100 := rfl
  have hpr : crossCheckBaseline.price = 10 := rfl
  rw [hq, hpr]
  norm_num
  field_simp
  norm_num

/-- Claim C2, counterexample: for elasticity −2 and baseline price 10,
quantity 100, the optimizer's closed-form branch returns price 1 on the
range [1, 50], but price 1/2 yields strictly greater revenue on the
constant-elasticity demand curve (revenue is 10000/p, unbounded as the price
decreases), so the returned price is not a revenue-maximizing price of the
curve itself — no finite such price exists. -/
theorem optimizer_curve_maximum_counterexample :
    optimize_price_for_revenue crossCheckBaseline (-2) crossCheckRange
      = OptimizationOutcome.optimum crossCheckRange.lo
          (revenueAt crossCheckBaseline (-2) crossCheckRange.lo) ∧
    revenueAt crossCheckBaseline (-2) crossCheckRange.lo
      < revenueAt crossCheckBaseline (-2) (1 / 2) := by
  constructor
  · simp only [optimize_price_for_revenue]
    rw [if_neg (by norm_num), if_pos (by norm_num)]
  · have hlo : crossCheckRange.lo = 1 := rfl
    rw [hlo, revenueAt_cross one_pos, revenueAt_cross (by norm_num : (0:ℝ) < 1/2)]
    norm_num

/-- Claim C2 (amended): for a positive baseline, the optimizer performs
exactly the claimed case analysis — for elasticity above 0 it refuses with
`anomalousElasticity`; for elasticity in [−1, 0] it reports no finite
interior optimum and returns the revenue at the caller-supplied ceiling,
revenue being monotone increasing in price under the model; for elasticity
below −1, revenue on the curve is decreasing in price (so no finite
revenue-maximizing price of the curve itself exists) and the optimizer
returns, in closed form, the revenue-maximizing price over the
caller-supplied bounded range, namely its lower bound. -/
theorem optimizer_case_analysis (b : Baseline) (r : PriceRange) (e : ℝ)
    (hp0 : 0 < b.price) (hq0 : 0 < b.quantity) (hlo : 0 < r.lo) :
    (0 < e → optimize_price_for_revenue b e r = .anomalousElasticity) ∧
    (-1 ≤ e → e ≤ 0 →
      optimize_price_for_revenue b e r
          = .noInteriorOptimum r.hi (revenueAt b e r.hi) ∧
      ∀ p q : ℝ, 0 < p → p ≤ q → revenueAt b e p ≤ revenueAt b e q) ∧
    (e < -1 →
      optimize_price_for_revenue b e r
          = .optimum r.lo (revenueAt b e r.lo) ∧
      ∀ p : ℝ, r.lo ≤ p → p ≤ r.hi → revenueAt b e p ≤ revenueAt b e r.lo) := by
  refine ⟨?_, ?_, ?_⟩
  · intro he
    simp only [optimize_price_for_revenue]
    rw [if_pos he]
  · intro he1 he2
    constructor
    · simp only [optimize_price_for_revenue]
      rw [if_neg (not_lt.mpr he2), if_neg (not_lt.mpr he1)]
    · intro p q hp hpq
      exact revenueAt_monotone b hp0 hq0.le he1 hp hpq
  · intro he
    constructor
    · simp only [optimize_price_for_revenue]
      rw [if_neg (not_lt.mpr (by linarith)), if_pos he]
    · intro p h1 _
      exact revenueAt_antitone b hp0 hq0.le he hlo h1

/-- The optimizer's refusal branch at a concrete anomalous elasticity (+1)
with the baseline and range hypotheses discharged concretely. -/
theorem optimizer_case_analysis_witness :
    0 < crossCheckBaseline.price ∧ 0 < crossCheckBaseline.quantity ∧
    0 < crossCheckRange.lo ∧ (0 : ℝ) < 1 ∧
    optimize_price_for_revenue crossCheckBaseline 1 crossCheckRange
      = OptimizationOutcome.anomalousElasticity := by
  refine ⟨by norm_num [crossCheckBaseline], by norm_num [crossCheckBaseline],
    by norm_num [crossCheckRange], by norm_num, ?_⟩
  exact (optimizer_case_analysis crossCheckBaseline crossCheckRange 1
    (by norm_num [crossCheckBaseline]) (by norm_num [crossCheckBaseline])
    (by norm_num [crossCheckRange])).1 (by norm_num)

/-! ### The grid-search fallback -/

theorem foldl_best_of_le (R : ℝ → ℝ) (x : ℝ) :
    ∀ l : List ℝ, (∀ p ∈ l, R p ≤ R x) →
      l.foldl (fun best p => if R best < R p then p else best) x = x := by
  intro l
  induction l with
  | nil => intro _; rfl
  | cons a t ih =>
    intro h
    have ha : R a ≤ R x := h a (List.mem_cons_self a t)
    simp only [List.foldl_cons]
    rw [if_neg (not_lt.mpr ha)]
    exact ih (fun p hp => h p (List.mem_cons_of_mem a hp))

theorem gridSearch_eq_lo (b : Baseline) (e : ℝ) (r : PriceRange)
    (hb : 0 < b.price) (hq : 0 ≤ b.quantity) (he : e < -1)
    (hlo : 0 < r.lo) (hstep : 0 ≤ r.step) :
    gridSearchPrice b e r = r.lo := by
  unfold gridSearchPrice
  apply foldl_best_of_le
  intro p hp
  unfold gridPoints at hp
  obtain ⟨i, _, rfl⟩ := List.mem_map.mp hp
  apply revenueAt_antitone b hb hq he hlo
  have hnn : 0 ≤ (i : ℝ) * r.step := mul_nonneg (Nat.cast_nonneg i) hstep
  linarith

/-- Claim C3: wherever the closed-form branch applies (elasticity < −1), the
bounded grid search over the caller-supplied price range containing the
closed-form optimum returns a price that agrees with the closed-form optimal
price within the stated 1 % tolerance — they coincide exactly, both being the
range's lower bound. -/
theorem grid_search_matches_closed_form (b : Baseline) (e : ℝ) (r : PriceRange)
    (hp0 : 0 < b.price) (hq0 : 0 ≤ b.quantity) (he : e < -1)
    (hlo : 0 < r.lo) (hstep : 0 ≤ r.step) :
    optimize_price_for_revenue b e r = .optimum r.lo (revenueAt b e r.lo) ∧
    |gridSearchPrice b e r - r.lo| ≤ (1 / 100) * r.lo := by
  constructor
  · simp only [optimize_price_for_revenue]
    rw [if_neg (not_lt.mpr (by linarith)), if_pos he]
  · rw [gridSearch_eq_lo b e r hp0 hq0 he hlo hstep, sub_self, abs_zero]
    positivity

/-- The grid-search agreement theorem at the spec's concrete cross-check:
elasticity −2, baseline price 10 and quantity 100, grid over [1, 50] with
step 0.01, with every hypothesis discharged concretely. -/
theorem grid_search_matches_closed_form_witness :
    0 < crossCheckBaseline.price ∧ (0 : ℝ) ≤ crossCheckBaseline.quantity ∧
    ((-2 : ℝ) < -1) ∧ 0 < crossCheckRange.lo ∧ (0 : ℝ) ≤ crossCheckRange.step ∧
    (optimize_price_for_revenue crossCheckBaseline (-2) crossCheckRange
        = OptimizationOutcome.optimum crossCheckRange.lo
            (revenueAt crossCheckBaseline (-2) crossCheckRange.lo) ∧
      |gridSearchPrice crossCheckBaseline (-2) crossCheckRange - crossCheckRange.lo|
        ≤ (1 / 100) * crossCheckRange.lo) := by
  refine ⟨by norm_num [crossCheckBaseline], by norm_num [crossCheckBaseline],
    by norm_num, by norm_num [crossCheckRange], by norm_num [crossCheckRange], ?_⟩
  exact grid_search_matches_closed_form crossCheckBaseline (-2) crossCheckRange
    (by norm_num [crossCheckBaseline]) (by norm_num [crossCheckBaseline])
    (by norm_num) (by norm_num [crossCheckRange]) (by norm_num [crossCheckRange])

/-- Claim C8, counterexample: the configuration file does not provide all
four declared parameters — no key of `configs/analysis_config.yaml` declares
a minimum sample size per partition, a price-grid step, or a column-name
mapping, so the conjunction claimed by the spec fails. -/
theorem config_four_params_fails :
    ¬ (providesMinSampleSize = true ∧ providesConfidenceLevel = true ∧
       providesGridSearchSpec = true ∧ providesColumnMapping = true) := by
  decide

/-- Claim C8, amended: of the four declared parameters the configuration file
provides only the confidence level (`reporting.confidence_level`); it
declares no minimum sample size per partition, no price-grid bounds/step for
the fallback search, and no mapping of column names. -/
theorem config_provides_only_confidence_level :
    providesConfidenceLevel = true ∧ providesMinSampleSize = false ∧
    providesGridSearchSpec = false ∧ providesColumnMapping = false := by
  decide

/-- Claim C9: on every execution path of the data-freshness check step, the
decision-reporting expression `'needs_refresh=...' >> '%GITHUB_OUTPUT%'` is a
right-shift of two strings, so the step raises a `TypeError` and never
records the `needs_refresh` output. -/
theorem checkDataFreshness_never_sets_output (f e : Bool) (a : Nat) :
    (checkDataFreshness f e a).1 = .raised .typeError ∧
    (checkDataFreshness f e a).2.githubOutput = [] := by
  unfold checkDataFreshness
  cases f
  · cases e
    · exact ⟨rfl, rfl⟩
    · by_cases h : 6 < a
      · simp [h, reportDecision, pyRShift]
      · simp [h, reportDecision, pyRShift]
  · exact ⟨rfl, rfl⟩

/-- Claim C10: the `missed_weeks_check` job is guarded by
`github.event_name == 'schedule'`, but the schedule trigger is commented out,
so under every trigger the workflow can currently receive the job's guard
evaluates to false and the job never runs. -/
theorem missed_weeks_check_never_runs (e : TriggerEvent)
    (h : e ∈ enabledTriggers) : missedWeeksCheckCondition e = false := by
  cases e with
  | schedule => simp [enabledTriggers] at h
  | workflowDispatch => rfl

/-- The workflow does receive the `workflow_dispatch` trigger, and on it the
`missed_weeks_check` guard is false. -/
theorem missed_weeks_check_never_runs_witness :
    TriggerEvent.workflowDispatch ∈ enabledTriggers ∧
    missedWeeksCheckCondition .workflowDispatch = false :=
  ⟨by decide, missed_weeks_check_never_runs .workflowDispatch (by decide)⟩

end PriceElasticity
